import Mathlib

/-!
Verification of the `confluence` REST client package: client construction,
URL resolution against the two base URLs, the request executor with its
per-verb expected-status table, and error-response formatting.

Strings are modelled at the character level.  Percent-escaping in Go's
`net/url` is modelled as the identity (the package is only ever used with
paths whose escaped and unescaped forms coincide); everything else in the
URL model follows the Go standard library's `Parse`, `ResolveReference`
and `String` algorithms.  JSON encoding and decoding, and the network
round trip, are external effects: they enter the embedding as the outcome
values (`Except String _`) they produce.
-/

deriving instance DecidableEq for Except

namespace Confluence

/-! ### String helpers mirroring Go's `strings` primitives

All string traversals are written structurally on the character list, so
that every definition evaluates by kernel reduction. -/

def strTake (s : String) (n : Nat) : String := ⟨s.data.take n⟩

def strDrop (s : String) (n : Nat) : String := ⟨s.data.drop n⟩

def strDropRight (s : String) (n : Nat) : String := ⟨s.data.take (s.data.length - n)⟩

def strStartsWith (s pre : String) : Bool := pre.data.isPrefixOf s.data

def strEndsWith (s suf : String) : Bool := suf.data.isSuffixOf s.data

def strContainsChar (s : String) (c : Char) : Bool := s.data.contains c

def strAll (s : String) (p : Char → Bool) : Bool := s.data.all p

def strAny (s : String) (p : Char → Bool) : Bool := s.data.any p

def strToLower (s : String) : String := ⟨s.data.map Char.toLower⟩

def strLength (s : String) : Nat := s.data.length

/-- Split on every occurrence of the character `sep` (the behavior of
`strings.Split` for a one-byte separator on the inputs this code feeds it). -/
def charSplitAux (sep : Char) : List Char → List Char → List String
  | [], acc => [⟨acc.reverse⟩]
  | c :: cs, acc =>
    if c = sep then ⟨acc.reverse⟩ :: charSplitAux sep cs []
    else charSplitAux sep cs (c :: acc)

def charSplit (s : String) (sep : Char) : List String :=
  charSplitAux sep s.data []

/-- Index (in characters) of the first occurrence of `sep`, seen as
`strings.IndexByte`. -/
def firstIdxAux (sep : Char) : List Char → Option Nat
  | [] => none
  | c :: cs =>
    if c = sep then some 0
    else (firstIdxAux sep cs).map (· + 1)

def firstIdx (sep : Char) (s : String) : Option Nat :=
  firstIdxAux sep s.data

/-- Index (in characters) of the last occurrence of `sep`, seen as
`strings.LastIndexByte`. -/
def lastIdxAux (sep : Char) : List Char → Option Nat
  | [] => none
  | c :: cs =>
    match lastIdxAux sep cs with
    | some i => some (i + 1)
    | none => if c = sep then some 0 else none

def lastIdx (sep : Char) (s : String) : Option Nat :=
  lastIdxAux sep s.data

/-- Go `net/url`'s `split(s, sep, cutc)`: split around the first occurrence
of `sep`; with `cutc` the separator is dropped, otherwise it stays with the
right half.  When `sep` does not occur the whole string is the left half. -/
def goSplit (s : String) (sep : Char) (cutc : Bool) : String × String :=
  match firstIdx sep s with
  | none => (s, "")
  | some i =>
    if cutc then (strTake s i, strDrop s (i + 1))
    else (strTake s i, strDrop s i)

/-- Go `strings.Join`: first element, then separator-prefixed elements. -/
def goJoin (elems : List String) (sep : String) : String :=
  match elems with
  | [] => ""
  | a :: as => as.foldl (fun acc s => acc ++ sep ++ s) a

/-- Go `fmt`'s `%t` formatting of a boolean. -/
def goBoolString (b : Bool) : String := if b then "true" else "false"

/-! ### The `net/url` model: URLs, parsing, reference resolution -/

/-- Go `net/url.Userinfo` (escaping modelled as identity). -/
structure Userinfo where
  username : String
  password : String
  passwordSet : Bool
deriving DecidableEq

/-- `Userinfo.String`. -/
def Userinfo.string (ui : Userinfo) : String :=
  ui.username ++ (if ui.passwordSet then ":" ++ ui.password else "")

/-- Go `net/url.URL` restricted to the fields this package can reach
(`OmitHost`, `RawPath`, `RawFragment` are never set on these code paths). -/
structure GoURL where
  scheme : String := ""
  opaq : String := ""
  user : Option Userinfo := none
  host : String := ""
  path : String := ""
  forceQuery : Bool := false
  rawQuery : String := ""
  fragment : String := ""
deriving DecidableEq

/-- `stringContainsCTLByte`: C0 control characters and DEL. -/
def stringContainsCTL (s : String) : Bool :=
  strAny s (fun c => c.toNat < 0x20 || c.toNat = 0x7f)

def isSchemeAlpha (c : Char) : Bool :=
  ('a' ≤ c && c ≤ 'z') || ('A' ≤ c && c ≤ 'Z')

/-- `getScheme`: maybe split a leading `scheme:` off a raw URL. -/
def getSchemeAux (raw : String) : List Char → Nat → Except String (String × String)
  | [], _ => .ok ("", raw)
  | c :: cs, i =>
    if isSchemeAlpha c then getSchemeAux raw cs (i + 1)
    else if c.isDigit || c = '+' || c = '-' || c = '.' then
      if i = 0 then .ok ("", raw) else getSchemeAux raw cs (i + 1)
    else if c = ':' then
      if i = 0 then .error "missing protocol scheme"
      else .ok (strTake raw i, strDrop raw (i + 1))
    else .ok ("", raw)

def getScheme (raw : String) : Except String (String × String) :=
  getSchemeAux raw raw.data 0

/-- `validOptionalPort`: empty, or a colon followed by decimal digits. -/
def validOptionalPort (port : String) : Bool :=
  port = "" || (strStartsWith port ":" && strAll (strDrop port 1) Char.isDigit)

/-- `parseHost` (zone and percent-escape decoding modelled as identity). -/
def parseHost (host : String) : Except String String :=
  if strStartsWith host "[" then
    match lastIdx ']' host with
    | none => .error "missing ']' in host"
    | some i =>
      let colonPort := strDrop host (i + 1)
      if validOptionalPort colonPort then .ok host
      else .error ("invalid port " ++ colonPort ++ " after host")
  else
    match lastIdx ':' host with
    | none => .ok host
    | some i =>
      let colonPort := strDrop host i
      if validOptionalPort colonPort then .ok host
      else .error ("invalid port " ++ colonPort ++ " after host")

/-- `validUserinfo`'s character predicate. -/
def isUserinfoChar (c : Char) : Bool :=
  c.isAlpha || c.isDigit ||
    ['-', '.', '_', ':', '~', '!', '$', '&', '\'', '(', ')', '*', '+', ',', ';', '=', '%', '@'].contains c

/-- `parseAuthority`: split optional userinfo from the host. -/
def parseAuthority (authority : String) : Except String (Option Userinfo × String) :=
  match lastIdx '@' authority with
  | none =>
    match parseHost authority with
    | .error e => .error e
    | .ok h => .ok (none, h)
  | some i =>
    let userinfo := strTake authority i
    match parseHost (strDrop authority (i + 1)) with
    | .error e => .error e
    | .ok host =>
      if ¬ strAll userinfo isUserinfoChar then .error "net/url: invalid userinfo"
      else if strContainsChar userinfo ':' then
        let up := goSplit userinfo ':' true
        .ok (some ⟨up.1, up.2, true⟩, host)
      else .ok (some ⟨userinfo, "", false⟩, host)

/-- The tail of `parse` after the scheme and query have been split off
(`viaRequest = false`). -/
def parseAfterScheme (scheme rest rawQuery : String) (forceQuery : Bool) :
    Except String GoURL :=
  if ¬ strStartsWith rest "/" ∧ scheme ≠ "" then
    .ok { scheme := scheme, opaq := rest, rawQuery := rawQuery, forceQuery := forceQuery }
  else if ¬ strStartsWith rest "/" ∧ strContainsChar (goSplit rest '/' true).1 ':' then
    .error "first path segment in URL cannot contain colon"
  else if (scheme ≠ "" ∨ ¬ strStartsWith rest "///") ∧ strStartsWith rest "//" then
    let ar := goSplit (strDrop rest 2) '/' false
    match parseAuthority ar.1 with
    | .error e => .error e
    | .ok uh =>
      .ok { scheme := scheme, user := uh.1, host := uh.2, path := ar.2,
            rawQuery := rawQuery, forceQuery := forceQuery }
  else
    .ok { scheme := scheme, path := rest, rawQuery := rawQuery, forceQuery := forceQuery }

/-- `net/url.parse(rawURL, false)` — the fragment has already been removed.
Path percent-decoding (`setPath`) is modelled as the identity. -/
def parseNoFrag (raw : String) : Except String GoURL :=
  if stringContainsCTL raw then .error "net/url: invalid control character in URL"
  else
    match getScheme raw with
    | .error e => .error e
    | .ok sr =>
      let scheme := strToLower sr.1
      let rest0 := sr.2
      if strEndsWith rest0 "?" ∧ ¬ strContainsChar (strDropRight rest0 1) '?' then
        parseAfterScheme scheme (strDropRight rest0 1) "" true
      else
        let rq := goSplit rest0 '?' true
        parseAfterScheme scheme rq.1 rq.2 false

/-- `net/url.Parse`: split the fragment at the first `#`, parse the rest,
then attach the fragment (fragment unescaping modelled as identity). -/
def parseURL (rawURL : String) : Except String GoURL :=
  let uf := goSplit rawURL '#' true
  match parseNoFrag uf.1 with
  | .error e => .error e
  | .ok url => .ok { url with fragment := uf.2 }

/-- `resolvePath(base, ref)`'s segment loop, written on the list of
slash-separated elements; `dst` starts as `"/"`.  Returns the final buffer
and the last element processed. -/
def rdsRun : List String → String → Bool → String → String × String
  | [], dst, _, lastElem => (dst, lastElem)
  | e :: es, dst, first, _ =>
    if e = "." then rdsRun es dst false e
    else if e = ".." then
      let str := strDrop dst 1
      match lastIdx '/' str with
      | none => rdsRun es "/" true e
      | some i => rdsRun es ("/" ++ strTake str i) first e
    else
      rdsRun es ((if first then dst else dst ++ "/") ++ e) false e

/-- `net/url.resolvePath`: merge `ref` onto `base` and remove dot segments. -/
def resolvePath (base ref : String) : String :=
  let full :=
    if ref = "" then base
    else if ¬ strStartsWith ref "/" then
      (match lastIdx '/' base with
       | some i => strTake base (i + 1)
       | none => "") ++ ref
    else ref
  if full = "" then ""
  else
    let dl := rdsRun (charSplit full '/') "/" true ""
    let dst := if dl.2 = "." ∨ dl.2 = ".." then dl.1 ++ "/" else dl.1
    if strLength dst > 1 ∧ strStartsWith (strDrop dst 1) "/" then strDrop dst 1 else dst

/-- `(*URL).ResolveReference` (with identity `setPath`). -/
def resolveReference (u ref : GoURL) : GoURL :=
  let url := if ref.scheme = "" then { ref with scheme := u.scheme } else ref
  if ref.scheme ≠ "" ∨ ref.host ≠ "" ∨ ref.user ≠ none then
    { url with path := resolvePath ref.path "" }
  else if ref.opaq ≠ "" then
    { url with user := none, host := "", path := "" }
  else
    let url :=
      if ref.path = "" ∧ ¬ ref.forceQuery ∧ ref.rawQuery = "" then
        let url := { url with rawQuery := u.rawQuery }
        if ref.fragment = "" then { url with fragment := u.fragment } else url
      else url
    { url with host := u.host, user := u.user, path := resolvePath u.path ref.path }

/-- `(*URL).Parse(ref)`: parse, then resolve against the receiver. -/
def goURLParse (base : GoURL) (ref : String) : Except String GoURL :=
  match parseURL ref with
  | .error e => .error e
  | .ok refURL => .ok (resolveReference base refURL)

/-- `(*URL).String` (escaping modelled as identity; `OmitHost` never set). -/
def urlString (u : GoURL) : String :=
  let b := if u.scheme ≠ "" then u.scheme ++ ":" else ""
  let b :=
    if u.opaq ≠ "" then b ++ u.opaq
    else
      let b :=
        if u.scheme ≠ "" ∨ u.host ≠ "" ∨ u.user ≠ none then
          let b := if u.host ≠ "" ∨ u.path ≠ "" ∨ u.user ≠ none then b ++ "//" else b
          let b := match u.user with
            | some ui => b ++ Userinfo.string ui ++ "@"
            | none => b
          b ++ u.host
        else b
      let b := if u.path ≠ "" ∧ ¬ strStartsWith u.path "/" ∧ u.host ≠ "" then b ++ "/" else b
      let b :=
        if b = "" ∧ strContainsChar (goSplit u.path '/' true).1 ':' then b ++ "./" else b
      b ++ u.path
  let b := if u.forceQuery ∨ u.rawQuery ≠ "" then b ++ "?" ++ u.rawQuery else b
  if u.fragment ≠ "" then b ++ "#" ++ u.fragment else b

/-! ### The confluence client -/

/-- `ErrorResponse.Data`: the nested object of the structured error payload.
All fields are optional in the JSON shape; decoding fills absent fields with
zero values, so the embedded record carries the decoded values directly. -/
structure ErrorData where
  authorized : Bool := false
  valid : Bool := false
  errors : List String := []
  successful : Bool := false
deriving DecidableEq

/-- `ErrorResponse` describes why a request failed. -/
structure ErrorResponse where
  statusCode : Nat := 0
  data : ErrorData := {}
  message : String := ""
deriving DecidableEq

/-- `(*ErrorResponse).String`: the human-readable formatting of the payload. -/
def ErrorResponse.string (e : ErrorResponse) : String :=
  let d := e.data
  let errorsString :=
    if d.errors.length > 0 then "\n  * " ++ goJoin d.errors "\n  * " else ""
  e.message ++ "\nAuthorized: " ++ goBoolString d.authorized ++ "\nValid: "
    ++ goBoolString d.valid ++ "\nSuccessful: " ++ goBoolString d.successful
    ++ errorsString

/-- `Client`: the handle built by `NewClient`.  The `http.Client` transport
is represented by its only configured datum, the timeout in seconds. -/
structure Client where
  timeoutSeconds : Nat
  baseURL : GoURL
  publicURL : GoURL
deriving DecidableEq

/-- `NewClientInput` provides information to connect to the API. -/
structure NewClientInput where
  site : String
  user : String
  token : String
deriving DecidableEq

/-- `NewClient` returns an authenticated client ready to use. -/
def NewClient (input : NewClientInput) : Client :=
  let publicURL : GoURL := { scheme := "https", host := input.site ++ ".atlassian.net" }
  let baseURL : GoURL := { publicURL with user := some ⟨input.user, input.token, true⟩ }
  { timeoutSeconds := 10, baseURL := baseURL, publicURL := publicURL }

/-- The outgoing HTTP request built by the executor: method, resolved URL,
optional JSON body, and the only header the code ever sets. -/
structure HttpRequest where
  method : String
  url : String
  body : Option String
  contentType : Option String
deriving DecidableEq

/-- The received HTTP response.  `status` is the status line (`resp.Status`);
the body is an external byte stream, represented by the outcome of decoding
it as the structured error payload (`errDecode`) and as the caller's result
type (`resultDecode`) — the branch the code takes consumes one of the two. -/
structure HttpResponse (ρ : Type) where
  statusCode : Nat
  status : String
  errDecode : Except String ErrorResponse
  resultDecode : Except String ρ
deriving DecidableEq

/-- The executor's error taxonomy, one constructor per `return err` site of
`do`: path resolution, body marshalling, transport, status-mismatch
(`APIError`, carrying the formatted text), and result decoding. -/
inductive DoError where
  | pathError (e : String)
  | marshalError (e : String)
  | transportError (e : String)
  | apiError (text : String)
  | resultDecodeError (e : String)
deriving DecidableEq

/-- The per-verb expected-status table; a verb outside the table has the
map's zero value, exactly as a Go map lookup. -/
def expectedStatusCode : String → Nat
  | "POST" => 200
  | "PUT" => 200
  | "GET" => 200
  | "DELETE" => 204
  | _ => 0

/-- The text of the `fmt.Errorf("%s\n\n%s %s\n%s\n\n%v", resp.Status,
method, path, string(bodyBytes), tail)` message; a nil `bodyBytes` prints
as the empty string. -/
def apiErrorText (status method path : String) (bodyBytes : Option String)
    (tail : String) : String :=
  status ++ "\n\n" ++ method ++ " " ++ path ++ "\n" ++ bodyBytes.getD ""
    ++ "\n\n" ++ tail

/-- The prefix of `do` up to (and including) building the request: resolve
the path against the authenticated base, marshal the body when one was
supplied (`body` carries the marshalling outcome produced by the JSON
library), build the request with `Content-Type: application/json` set only
when a body is present.  Returns the request together with the retained
`bodyBytes`. -/
def prepareRequest (c : Client) (method path : String)
    (body : Option (Except String String)) :
    Except DoError (HttpRequest × Option String) :=
  match goURLParse c.baseURL path with
  | .error e => .error (.pathError e)
  | .ok u =>
    match body with
    | none =>
      .ok ({ method := method, url := urlString u, body := none,
             contentType := none }, none)
    | some (.error e) => .error (.marshalError e)
    | some (.ok bodyBytes) =>
      .ok ({ method := method, url := urlString u, body := some bodyBytes,
             contentType := some "application/json" }, some bodyBytes)

/-- `(*Client).do`: the executor.  `send` is the transport
(`c.client.Do`), delivering either a transport failure or a response;
`wantResult` is whether a non-nil `result` target was supplied. -/
def doRequest {ρ : Type} (c : Client) (method path : String)
    (body : Option (Except String String)) (wantResult : Bool)
    (send : HttpRequest → Except String (HttpResponse ρ)) :
    Except DoError (Option ρ) :=
  match prepareRequest c method path body with
  | .error e => .error e
  | .ok rb =>
    match send rb.1 with
    | .error e => .error (.transportError e)
    | .ok resp =>
      if resp.statusCode ≠ expectedStatusCode method then
        match resp.errDecode with
        | .error e =>
          .error (.apiError (apiErrorText resp.status method path rb.2 e))
        | .ok errResponse =>
          .error (.apiError (apiErrorText resp.status method path rb.2
            (ErrorResponse.string errResponse)))
      else
        if wantResult then
          match resp.resultDecode with
          | .error e => .error (.resultDecodeError e)
          | .ok v => .ok (some v)
        else .ok none

/-- `(*Client).Post`. -/
def Client.Post {ρ : Type} (c : Client) (path : String)
    (body : Option (Except String String)) (wantResult : Bool)
    (send : HttpRequest → Except String (HttpResponse ρ)) :
    Except DoError (Option ρ) :=
  doRequest c "POST" path body wantResult send

/-- `(*Client).Get`: no body. -/
def Client.Get {ρ : Type} (c : Client) (path : String) (wantResult : Bool)
    (send : HttpRequest → Except String (HttpResponse ρ)) :
    Except DoError (Option ρ) :=
  doRequest c "GET" path none wantResult send

/-- `(*Client).Put`. -/
def Client.Put {ρ : Type} (c : Client) (path : String)
    (body : Option (Except String String)) (wantResult : Bool)
    (send : HttpRequest → Except String (HttpResponse ρ)) :
    Except DoError (Option ρ) :=
  doRequest c "PUT" path body wantResult send

/-- `(*Client).Delete`: no body, no result target. -/
def Client.Delete {ρ : Type} (c : Client) (path : String)
    (send : HttpRequest → Except String (HttpResponse ρ)) :
    Except DoError (Option ρ) :=
  doRequest c "DELETE" path none false send

/-- `(*Client).URL`: resolve against the public base, empty string on
parse failure. -/
def Client.URL (c : Client) (path : String) : String :=
  match goURLParse c.publicURL path with
  | .error _ => ""
  | .ok u => urlString u

/-- One operation on a client handle, for stating state-invariance. -/
inductive ClientOp where
  | opPost (path : String) (body : Option (Except String String)) (wantResult : Bool)
  | opGet (path : String) (wantResult : Bool)
  | opPut (path : String) (body : Option (Except String String)) (wantResult : Bool)
  | opDelete (path : String)
  | opURL (path : String)

/-- Outcome of one client operation. -/
inductive OpOutcome (ρ : Type) where
  | api (r : Except DoError (Option ρ))
  | link (s : String)

/-- State-passing form of the client's methods: every method takes the
handle as receiver and never assigns through it, so each step returns the
outcome together with the (unchanged) handle. -/
def clientStep {ρ : Type} (send : HttpRequest → Except String (HttpResponse ρ))
    (c : Client) : ClientOp → OpOutcome ρ × Client
  | .opPost p b w => (.api (c.Post p b w send), c)
  | .opGet p w => (.api (c.Get p w send), c)
  | .opPut p b w => (.api (c.Put p b w send), c)
  | .opDelete p => (.api (c.Delete p send), c)
  | .opURL p => (.link (c.URL p), c)

/-! ### Notions used to state the claims -/

/-- `needle` occurs contiguously inside `hay`. -/
def Substr (needle hay : String) : Prop :=
  ∃ a b, hay = a ++ (needle ++ b)

/-- Modelled from the spec: the header of the formatted error payload —
the message followed by the three flag lines, before any sub-error list. -/
def specHeader (e : ErrorResponse) : String :=
  e.message ++ "\nAuthorized: " ++ goBoolString e.data.authorized ++ "\nValid: "
    ++ goBoolString e.data.valid ++ "\nSuccessful: " ++ goBoolString e.data.successful

/-! ### Concrete fixtures used by the witnesses -/

def inputW : NewClientInput := ⟨"acme", "u", "t"⟩

def clientW : Client := NewClient inputW

def reqGetW : HttpRequest :=
  { method := "GET", url := "https://u:t@acme.atlassian.net/x", body := none,
    contentType := none }

def reqDeleteW : HttpRequest :=
  { method := "DELETE", url := "https://u:t@acme.atlassian.net/x",
    body := none, contentType := none }

def reqPostW : HttpRequest :=
  { method := "POST", url := "https://u:t@acme.atlassian.net/x",
    body := some "{}", contentType := some "application/json" }

/-- A 404 whose body is not decodable as the error payload. -/
def resp404W : HttpResponse Unit :=
  { statusCode := 404, status := "404 Not Found", errDecode := .error "bad",
    resultDecode := .ok () }

/-- A 404 whose body decodes as the structured error payload `errRespW`. -/
def errRespW : ErrorResponse :=
  { statusCode := 404, data := { authorized := true, errors := ["boom"] },
    message := "oops" }

def resp404DecW : HttpResponse Unit :=
  { statusCode := 404, status := "404 Not Found",
    errDecode := .ok errRespW, resultDecode := .ok () }

/-- A 204 whose empty body decodes as nothing at all. -/
def resp204W : HttpResponse Unit :=
  { statusCode := 204, status := "204 No Content",
    errDecode := .error "empty body", resultDecode := .error "empty body" }

/-- A 200 whose body decodes into the caller's result target. -/
def resp200W : HttpResponse Nat :=
  { statusCode := 200, status := "200 OK", errDecode := .error "not an error",
    resultDecode := .ok 7 }

end Confluence

namespace Confluence

/-! ### Helper lemmas -/

theorem substr_refl (s : String) : Substr s s :=
  ⟨"", "", by rw [String.append_empty, String.empty_append]⟩

theorem substr_append_left (x : String) {n h : String} (hs : Substr n h) :
    Substr n (x ++ h) := by
  obtain ⟨a, b, rfl⟩ := hs
  exact ⟨x ++ a, b, (String.append_assoc x a (n ++ b)).symm⟩

theorem substr_append_right (x : String) {n h : String} (hs : Substr n h) :
    Substr n (h ++ x) := by
  obtain ⟨a, b, rfl⟩ := hs
  refine ⟨a, b ++ x, ?_⟩
  rw [String.append_assoc, String.append_assoc]

theorem foldl_sep_append (sep : String) (as : List String) :
    ∀ x y : String,
      as.foldl (fun acc s => acc ++ sep ++ s) (x ++ y)
        = x ++ as.foldl (fun acc s => acc ++ sep ++ s) y := by
  induction as with
  | nil => intro x y; rfl
  | cons b bs ih =>
    intro x y
    simp only [List.foldl_cons]
    rw [String.append_assoc x y sep, String.append_assoc x (y ++ sep) b]
    exact ih x ((y ++ sep) ++ b)

/-- The bulleted sub-error section, as the source builds it, coincides with
a per-element fold that appends one `"\n  * "`-prefixed line per sub-error
(and nothing for the empty list). -/
theorem errors_section_eq_foldl (l : List String) :
    (if l.length > 0 then "\n  * " ++ goJoin l "\n  * " else "")
      = l.foldl (fun acc s => acc ++ "\n  * " ++ s) "" := by
  cases l with
  | nil => rfl
  | cons a as =>
    rw [if_pos (by simp)]
    simp only [goJoin, List.foldl_cons]
    rw [String.empty_append, ← foldl_sep_append "\n  * " as "\n  * " a]

/-! ### The claims -/

/-- C7: for all inputs, client construction is total and deterministic
(`NewClient` is a function) and yields a handle whose authenticated base
has scheme `https`, host `{site}.atlassian.net` and embedded basic-auth
credentials `(user, token)`, whose public base has the same scheme and
host and no credentials, and whose transport timeout is 10 seconds. -/
theorem newClient_bases_and_timeout (input : NewClientInput) :
    (NewClient input).baseURL.scheme = "https" ∧
    (NewClient input).baseURL.host = input.site ++ ".atlassian.net" ∧
    (NewClient input).baseURL.user = some ⟨input.user, input.token, true⟩ ∧
    (NewClient input).publicURL.scheme = (NewClient input).baseURL.scheme ∧
    (NewClient input).publicURL.host = (NewClient input).baseURL.host ∧
    (NewClient input).publicURL.user = none ∧
    (NewClient input).timeoutSeconds = 10 :=
  ⟨rfl, rfl, rfl, rfl, rfl, rfl, rfl⟩

/-- C8: whenever the path does not parse as a URL reference, `Client.URL`
returns the empty string (it is a total function, so it never raises). -/
theorem url_empty_on_unparsable_path (c : Client) (path e : String)
    (h : parseURL path = .error e) : Client.URL c path = "" := by
  simp [Client.URL, goURLParse, h]

/-- Witness for C8: the path `":"` is unparsable (missing protocol scheme)
and `Client.URL` returns the empty string on it. -/
theorem url_empty_on_unparsable_path_witness :
    parseURL ":" = .error "missing protocol scheme" ∧
      Client.URL (NewClient ⟨"acme", "u", "t"⟩) ":" = "" :=
  ⟨by decide,
   url_empty_on_unparsable_path (NewClient ⟨"acme", "u", "t"⟩) ":"
     "missing protocol scheme" (by decide)⟩

/-- C9: every operation on a constructed handle (Post, Get, Put, Delete
and the public-URL resolver) leaves the handle unchanged: the
authenticated base, the public base and the timeout after any call equal
their values before it. -/
theorem client_state_unchanged {ρ : Type}
    (send : HttpRequest → Except String (HttpResponse ρ)) (c : Client)
    (op : ClientOp) :
    (clientStep send c op).2 = c ∧
    (clientStep send c op).2.baseURL = c.baseURL ∧
    (clientStep send c op).2.publicURL = c.publicURL ∧
    (clientStep send c op).2.timeoutSeconds = c.timeoutSeconds := by
  cases op <;> exact ⟨rfl, rfl, rfl, rfl⟩

/-- C10: the formatted error payload is exactly the message followed by
the three flag lines, with one `"  * "`-bulleted line appended per
sub-error — so the bulleted section is present exactly when the sub-error
list is non-empty. -/
theorem errorResponse_string_spec (e : ErrorResponse) :
    ErrorResponse.string e
      = specHeader e
          ++ e.data.errors.foldl (fun acc s => acc ++ "\n  * " ++ s) "" := by
  simp only [ErrorResponse.string, specHeader]
  rw [← errors_section_eq_foldl]

theorem prepareRequest_contentType {c : Client} {method path : String}
    {body : Option (Except String String)} {req : HttpRequest}
    {bb : Option String}
    (hp : prepareRequest c method path body = .ok (req, bb)) :
    req.contentType = if body.isSome then some "application/json" else none := by
  unfold prepareRequest at hp
  rcases h : goURLParse c.baseURL path with e | u <;> rw [h] at hp
  · exact absurd hp (by simp)
  · rcases body with _ | e | s
    · simp only [Except.ok.injEq, Prod.mk.injEq] at hp
      rw [← hp.1]
      rfl
    · exact absurd hp (by simp)
    · simp only [Except.ok.injEq, Prod.mk.injEq] at hp
      rw [← hp.1]
      rfl

/-- C6: the request built by the executor carries the
`Content-Type: application/json` header exactly when a body was supplied;
in particular the requests built for GET and DELETE, whose wrappers never
pass a body, carry no Content-Type header. -/
theorem contentType_iff_body (c : Client) (method path : String)
    (body : Option (Except String String)) (req : HttpRequest)
    (bb : Option String)
    (hp : prepareRequest c method path body = .ok (req, bb)) :
    ((req.contentType = some "application/json") ↔ body.isSome = true) ∧
    (body = none → req.contentType = none) ∧
    (∀ q b2, prepareRequest c "GET" path none = .ok (q, b2) →
      q.contentType = none) ∧
    (∀ q b2, prepareRequest c "DELETE" path none = .ok (q, b2) →
      q.contentType = none) := by
  refine ⟨?_, ?_, ?_, ?_⟩
  · rw [prepareRequest_contentType hp]
    cases body <;> simp
  · intro hb
    subst hb
    rw [prepareRequest_contentType hp]
    rfl
  · intro q b2 hq
    rw [prepareRequest_contentType hq]
    rfl
  · intro q b2 hq
    rw [prepareRequest_contentType hq]
    rfl

/-- Witness for C6: a POST with a marshalled body gets the header, and the
header is present exactly because the body is. -/
theorem contentType_iff_body_witness :
    prepareRequest clientW "POST" "x" (some (.ok "{}"))
      = .ok (reqPostW, some "{}") ∧
    (reqPostW.contentType = some "application/json" ↔
      (some (Except.ok "{}") : Option (Except String String)).isSome = true) :=
  ⟨by decide,
   (contentType_iff_body clientW "POST" "x" (some (.ok "{}")) reqPostW
     (some "{}") (by decide)).1⟩

/-- C1: once a response has been received for one of the four verbs, its
status is classified against the table POST=200, PUT=200, GET=200,
DELETE=204: a matching status never produces an `apiError`, and any other
status produces exactly an `apiError`. -/
theorem status_classification {ρ : Type} (c : Client) (method path : String)
    (body : Option (Except String String)) (w : Bool)
    (send : HttpRequest → Except String (HttpResponse ρ))
    (req : HttpRequest) (bb : Option String) (resp : HttpResponse ρ)
    (_hm : method = "POST" ∨ method = "PUT" ∨ method = "GET" ∨
      method = "DELETE")
    (hp : prepareRequest c method path body = .ok (req, bb))
    (hs : send req = .ok resp) :
    (resp.statusCode = expectedStatusCode method →
      ∀ t, doRequest c method path body w send ≠ .error (.apiError t)) ∧
    (resp.statusCode ≠ expectedStatusCode method →
      ∃ t, doRequest c method path body w send = .error (.apiError t)) := by
  constructor
  · intro hstat t
    simp only [doRequest, hp, hs]
    rw [if_neg (by simp [hstat])]
    cases w
    · simp
    · rcases hr : resp.resultDecode with e | v <;> simp [hr]
  · intro hstat
    rcases hr : resp.errDecode with e | er
    · exact ⟨apiErrorText resp.status method path bb e, by
        simp only [doRequest, hp, hs]
        rw [if_pos hstat, hr]⟩
    · exact ⟨apiErrorText resp.status method path bb (ErrorResponse.string er), by
        simp only [doRequest, hp, hs]
        rw [if_pos hstat, hr]⟩

/-- Witness for C1: a GET answered with 404 yields an `apiError`. -/
theorem status_classification_witness :
    prepareRequest clientW "GET" "x" none = .ok (reqGetW, none) ∧
    resp404W.statusCode ≠ expectedStatusCode "GET" ∧
    (∃ t, doRequest clientW "GET" "x" none false (fun _ => .ok resp404W)
      = .error (.apiError t)) :=
  ⟨by decide, by decide,
   (status_classification clientW "GET" "x" none false (fun _ => .ok resp404W)
     reqGetW none resp404W (Or.inr (Or.inr (Or.inl rfl))) (by decide)
     rfl).2 (by decide)⟩

/-- Resolving a reference that carries no scheme, no host and no userinfo
takes the base's scheme, host and user, and merges the paths. -/
theorem resolveReference_relative_fields (base r : GoURL)
    (h2 : r.scheme = "") (h3 : r.host = "") (h4 : r.user = none)
    (h5 : r.opaq = "") :
    (resolveReference base r).scheme = base.scheme ∧
    (resolveReference base r).host = base.host ∧
    (resolveReference base r).user = base.user ∧
    (resolveReference base r).path = resolvePath base.path r.path := by
  rcases r with ⟨sch, op, us, ho, pa, fq, rq, fr⟩
  obtain rfl : sch = "" := h2
  obtain rfl : ho = "" := h3
  obtain rfl : us = none := h4
  obtain rfl : op = "" := h5
  unfold resolveReference
  dsimp only
  split_ifs <;> simp_all

/-- C2 (amended): for every path that parses as a relative reference with
no scheme and no authority component (no host, no userinfo), `Client.URL`
resolves it against the public base: the result's scheme and host are the
public base's, it carries no credentials, and its path is the reference
path merged onto the base path with dot segments removed; the returned
string is that URL serialized. -/
theorem url_resolves_relative (input : NewClientInput) (p : String)
    (r : GoURL) (h1 : parseURL p = .ok r) (h2 : r.scheme = "")
    (h3 : r.host = "") (h4 : r.user = none) (h5 : r.opaq = "") :
    ∃ res, goURLParse (NewClient input).publicURL p = .ok res ∧
      res.scheme = (NewClient input).publicURL.scheme ∧
      res.host = (NewClient input).publicURL.host ∧
      res.user = none ∧
      res.path = resolvePath (NewClient input).publicURL.path r.path ∧
      Client.URL (NewClient input) p = urlString res := by
  have hres : goURLParse (NewClient input).publicURL p
      = .ok (resolveReference (NewClient input).publicURL r) := by
    simp only [goURLParse, h1]
  obtain ⟨f1, f2, f3, f4⟩ := resolveReference_relative_fields
    (NewClient input).publicURL r h2 h3 h4 h5
  exact ⟨resolveReference (NewClient input).publicURL r, hres, f1, f2, f3,
    f4, by simp only [Client.URL, hres]⟩

/-- Witness for C2 (amended): the spec's own example, base
`https://acme.atlassian.net` and path `wiki/page/1`. -/
theorem url_resolves_relative_witness :
    parseURL "wiki/page/1" = .ok { path := "wiki/page/1" } ∧
    Client.URL (NewClient inputW) "wiki/page/1"
      = "https://acme.atlassian.net/wiki/page/1" ∧
    (∃ res, goURLParse (NewClient inputW).publicURL "wiki/page/1"
        = .ok res ∧
      res.scheme = (NewClient inputW).publicURL.scheme ∧
      res.host = (NewClient inputW).publicURL.host ∧
      res.user = none ∧
      res.path = resolvePath (NewClient inputW).publicURL.path
        ({ path := "wiki/page/1" } : GoURL).path ∧
      Client.URL (NewClient inputW) "wiki/page/1" = urlString res) :=
  ⟨by decide, by decide,
   url_resolves_relative inputW "wiki/page/1" { path := "wiki/page/1" }
     (by decide) rfl rfl rfl rfl⟩

/-- C2 counterexample: `"//evil.example/x"` is a valid relative reference
(it parses, with empty scheme), yet resolving it against the public base
yields authority `evil.example`, not the public base's host — so the claim
quantified over all valid relative references fails. -/
theorem url_network_path_counterexample :
    parseURL "//evil.example/x"
      = .ok { host := "evil.example", path := "/x" } ∧
    ({ host := "evil.example", path := "/x" } : GoURL).scheme = "" ∧
    goURLParse (NewClient ⟨"acme", "u", "t"⟩).publicURL "//evil.example/x"
      = .ok { scheme := "https", host := "evil.example", path := "/x" } ∧
    Client.URL (NewClient ⟨"acme", "u", "t"⟩) "//evil.example/x"
      = "https://evil.example/x" ∧
    "evil.example" ≠ (NewClient ⟨"acme", "u", "t"⟩).publicURL.host :=
  ⟨by decide, rfl, by decide, by decide, by decide⟩

theorem substr_trans {a b c : String} (h1 : Substr a b) (h2 : Substr b c) :
    Substr a c := by
  obtain ⟨x, y, rfl⟩ := h1
  obtain ⟨u, v, rfl⟩ := h2
  exact ⟨u ++ x, y ++ v, by simp [String.append_assoc]⟩

/-- Every context component is a contiguous piece of the `APIError` text. -/
theorem apiErrorText_contains (status method path : String)
    (bb : Option String) (tail : String) :
    Substr status (apiErrorText status method path bb tail) ∧
    Substr method (apiErrorText status method path bb tail) ∧
    Substr path (apiErrorText status method path bb tail) ∧
    Substr (bb.getD "") (apiErrorText status method path bb tail) ∧
    Substr tail (apiErrorText status method path bb tail) := by
  refine ⟨?_, ?_, ?_, ?_, ?_⟩
  · exact substr_append_right tail (substr_append_right "\n\n"
      (substr_append_right (bb.getD "") (substr_append_right "\n"
        (substr_append_right path (substr_append_right " "
          (substr_append_right method (substr_append_right "\n\n"
            (substr_refl status))))))))
  · exact substr_append_right tail (substr_append_right "\n\n"
      (substr_append_right (bb.getD "") (substr_append_right "\n"
        (substr_append_right path (substr_append_right " "
          (substr_append_left (status ++ "\n\n") (substr_refl method)))))))
  · exact substr_append_right tail (substr_append_right "\n\n"
      (substr_append_right (bb.getD "") (substr_append_right "\n"
        (substr_append_left (status ++ "\n\n" ++ method ++ " ")
          (substr_refl path)))))
  · exact substr_append_right tail (substr_append_right "\n\n"
      (substr_append_left (status ++ "\n\n" ++ method ++ " " ++ path ++ "\n")
        (substr_refl (bb.getD ""))))
  · exact substr_append_left
      (status ++ "\n\n" ++ method ++ " " ++ path ++ "\n" ++ bb.getD ""
        ++ "\n\n") (substr_refl tail)

/-- The message field is a contiguous piece of the formatted payload. -/
theorem message_substr_formatted (e : ErrorResponse) :
    Substr e.message (ErrorResponse.string e) :=
  substr_append_right _ (substr_append_right _ (substr_append_right _
    (substr_append_right _ (substr_append_right _ (substr_append_right _
      (substr_append_right _ (substr_refl e.message)))))))

/-- C3: on a status mismatch whose body decodes as the structured error
payload, the call fails with an `apiError` whose text embeds the status
line, the method, the original (unresolved) path, the serialized request
body (empty when none was sent), the formatted payload, and within it the
decoded message field. -/
theorem api_error_text_decoded {ρ : Type} (c : Client) (method path : String)
    (body : Option (Except String String)) (w : Bool)
    (send : HttpRequest → Except String (HttpResponse ρ))
    (req : HttpRequest) (bb : Option String) (resp : HttpResponse ρ)
    (er : ErrorResponse)
    (hp : prepareRequest c method path body = .ok (req, bb))
    (hs : send req = .ok resp)
    (hstat : resp.statusCode ≠ expectedStatusCode method)
    (hd : resp.errDecode = .ok er) :
    doRequest c method path body w send
      = .error (.apiError (apiErrorText resp.status method path bb
          (ErrorResponse.string er))) ∧
    Substr resp.status (apiErrorText resp.status method path bb
      (ErrorResponse.string er)) ∧
    Substr method (apiErrorText resp.status method path bb
      (ErrorResponse.string er)) ∧
    Substr path (apiErrorText resp.status method path bb
      (ErrorResponse.string er)) ∧
    Substr (bb.getD "") (apiErrorText resp.status method path bb
      (ErrorResponse.string er)) ∧
    Substr (ErrorResponse.string er) (apiErrorText resp.status method path bb
      (ErrorResponse.string er)) ∧
    Substr er.message (apiErrorText resp.status method path bb
      (ErrorResponse.string er)) := by
  obtain ⟨h1, h2, h3, h4, h5⟩ := apiErrorText_contains resp.status method path
    bb (ErrorResponse.string er)
  refine ⟨?_, h1, h2, h3, h4, h5,
    substr_trans (message_substr_formatted er) h5⟩
  simp only [doRequest, hp, hs]
  rw [if_pos hstat, hd]

/-- Witness for C3: a GET answered 404 with a decodable error body. -/
theorem api_error_text_decoded_witness :
    prepareRequest clientW "GET" "x" none = .ok (reqGetW, none) ∧
    resp404DecW.statusCode ≠ expectedStatusCode "GET" ∧
    resp404DecW.errDecode = .ok errRespW ∧
    doRequest clientW "GET" "x" none false (fun _ => .ok resp404DecW)
      = .error (.apiError (apiErrorText "404 Not Found" "GET" "x" none
          (ErrorResponse.string errRespW))) :=
  ⟨by decide, by decide, rfl,
   (api_error_text_decoded clientW "GET" "x" none false
     (fun _ => .ok resp404DecW) reqGetW none resp404DecW errRespW
     (by decide) rfl (by decide) rfl).1⟩

/-- C4: on a status mismatch whose body does not decode as the structured
error payload, the call still returns an error — an `apiError` whose text
embeds the status line, the method, the original path, the outgoing body,
and the raw decode failure in place of the formatted payload. -/
theorem api_error_text_undecodable {ρ : Type} (c : Client)
    (method path : String) (body : Option (Except String String)) (w : Bool)
    (send : HttpRequest → Except String (HttpResponse ρ))
    (req : HttpRequest) (bb : Option String) (resp : HttpResponse ρ)
    (e : String)
    (hp : prepareRequest c method path body = .ok (req, bb))
    (hs : send req = .ok resp)
    (hstat : resp.statusCode ≠ expectedStatusCode method)
    (hd : resp.errDecode = .error e) :
    doRequest c method path body w send
      = .error (.apiError (apiErrorText resp.status method path bb e)) ∧
    Substr resp.status (apiErrorText resp.status method path bb e) ∧
    Substr method (apiErrorText resp.status method path bb e) ∧
    Substr path (apiErrorText resp.status method path bb e) ∧
    Substr (bb.getD "") (apiErrorText resp.status method path bb e) ∧
    Substr e (apiErrorText resp.status method path bb e) := by
  obtain ⟨h1, h2, h3, h4, h5⟩ := apiErrorText_contains resp.status method path
    bb e
  refine ⟨?_, h1, h2, h3, h4, h5⟩
  simp only [doRequest, hp, hs]
  rw [if_pos hstat, hd]

/-- Witness for C4: a GET answered 404 with an undecodable error body. -/
theorem api_error_text_undecodable_witness :
    prepareRequest clientW "GET" "x" none = .ok (reqGetW, none) ∧
    resp404W.statusCode ≠ expectedStatusCode "GET" ∧
    resp404W.errDecode = .error "bad" ∧
    doRequest clientW "GET" "x" none false (fun _ => .ok resp404W)
      = .error (.apiError (apiErrorText "404 Not Found" "GET" "x" none
          "bad")) :=
  ⟨by decide, by decide, rfl,
   (api_error_text_undecodable clientW "GET" "x" none false
     (fun _ => .ok resp404W) reqGetW none resp404W "bad"
     (by decide) rfl (by decide) rfl).1⟩

/-- C5: when the received status matches the verb's expectation, a
supplied result target is populated from the body whenever the body
decodes into it (and the call returns no error), and with no result
target — in particular DELETE — the call returns no error whatever the
response body holds. -/
theorem success_populates_result {ρ : Type} (c : Client)
    (method path : String) (body : Option (Except String String))
    (send : HttpRequest → Except String (HttpResponse ρ))
    (req : HttpRequest) (bb : Option String) (resp : HttpResponse ρ)
    (hp : prepareRequest c method path body = .ok (req, bb))
    (hs : send req = .ok resp)
    (hstat : resp.statusCode = expectedStatusCode method) :
    (∀ v, resp.resultDecode = .ok v →
      doRequest c method path body true send = .ok (some v)) ∧
    (doRequest c method path body false send = .ok none) := by
  constructor
  · intro v hv
    simp only [doRequest, hp, hs]
    rw [if_neg (by simp [hstat]), hv]
    rfl
  · simp only [doRequest, hp, hs]
    rw [if_neg (by simp [hstat])]
    rfl

/-- Witness for C5: a DELETE answered with 204 returns no error even
though its body decodes as nothing, and a GET answered with 200 populates
the supplied result target. -/
theorem success_populates_result_witness :
    prepareRequest clientW "DELETE" "x" none = .ok (reqDeleteW, none) ∧
    resp204W.statusCode = expectedStatusCode "DELETE" ∧
    doRequest clientW "DELETE" "x" none false (fun _ => .ok resp204W)
      = .ok none ∧
    doRequest clientW "GET" "x" none true (fun _ => .ok resp200W)
      = .ok (some 7) :=
  ⟨by decide, by decide,
   (success_populates_result clientW "DELETE" "x" none
     (fun _ => .ok resp204W) reqDeleteW none resp204W (by decide) rfl
     (by decide)).2,
   (success_populates_result clientW "GET" "x" none
     (fun _ => .ok resp200W) reqGetW none resp200W (by decide) rfl
     (by decide)).1 7 rfl⟩

end Confluence
